import Mathlib

/-!
Verification of the ownership & risk propagation engine of this repository:
a shallow embedding of the Neo4j-backed graph model and of the analytical
operations (`compute_bis50_captures` from `scripts/process/load_neo4j.py`,
`get_bis50_analysis` / `get_entity_network` / `screen_entities` from
`api/services/neo4j_service.py`, `analyze_timeline_patterns` and the
screening details mapping from `api/routers/`), together with theorems
settling the specification claims about them.

Modelling conventions:
- Node identifiers are natural numbers; Neo4j node labels are an explicit
  `Label` field.  Edge `percentage` values are `Option ℚ` (absent = no
  `percentage` property; Cypher comparisons with `null` are falsy).
- A Cypher variable-length path `[:T*1..k]` is modelled as a nonempty list
  of edge indices of length at most `k` whose indices are pairwise
  distinct (Cypher enforces relationship uniqueness within a path; node
  repetitions are allowed).
- Numeric-to-string formatting of percentages inside reason strings is
  abstracted by `toString` on `ℚ`.
-/

/-- Neo4j node labels used by the loader and queries. -/
inductive Label where
  | Company
  | Person
  | GovernmentBody
  | SanctionEntry
  | TimelineEvent
  deriving DecidableEq, Repr

/-- A graph node: the properties of the repository's entity nodes that the
analytical operations read (`id`, `name_en`, `risk_flags`, `risk_score`,
`bis_50_captured`, `bis_50_reason`). -/
structure Node where
  id : ℕ
  label : Label
  name_en : String
  risk_flags : List String
  risk_score : Option ℤ := none
  bis_50_captured : Bool := false
  bis_50_reason : Option String := none
  deriving DecidableEq, Repr

/-- A directed typed edge with the properties read by the engine
(`percentage`, `role`). -/
structure Edge where
  src : ℕ
  tgt : ℕ
  etype : String
  percentage : Option ℚ := none
  role : Option String := none
  deriving DecidableEq, Repr

/-- The graph snapshot: a list of nodes and a list of edges.  Edges are
addressed by their index in `edges`, which stands for Neo4j relationship
identity (needed to express Cypher's relationship-uniqueness of paths). -/
structure Graph where
  nodes : List Node
  edges : List Edge
  deriving DecidableEq, Repr

/-- Node lookup by id (`MATCH (n {id: $entity_id})`). -/
def findNode (g : Graph) (id : ℕ) : Option Node :=
  g.nodes.find? (fun n => n.id == id)

/-- Membership of `entity_list` or `meu_list` in a node's `risk_flags`
(the seed / direct-listing test used throughout the code). -/
def flaggedListed (n : Node) : Bool :=
  n.risk_flags.contains "entity_list" || n.risk_flags.contains "meu_list"

/-- The hop test of the capture queries: the relationship is `OWNS` and its
`percentage` is present and at least 50 (`rel.percentage >= 50` is falsy in
Cypher when `percentage` is `null`). -/
def okCapture (e : Edge) : Bool :=
  e.etype == "OWNS" &&
    (match e.percentage with
     | some q => decide (50 ≤ q)
     | none => false)

/-- The edge-type test of the network query
(`[r:OWNS|OFFICER_OF|CONTROLS|SUBSIDIARY_OF...]`). -/
def okNetwork (e : Edge) : Bool :=
  e.etype == "OWNS" || e.etype == "OFFICER_OF" || e.etype == "CONTROLS" ||
    e.etype == "SUBSIDIARY_OF"

/-- The nodes reachable in one step over edge `e` from node `cur`:
forward along the edge, and also backward when the pattern is undirected
(the network query's pattern has no arrow; the capture patterns do). -/
def nexts (e : Edge) (cur : ℕ) (undir : Bool) : List ℕ :=
  (if e.src = cur then [e.tgt] else []) ++
    (if undir ∧ e.tgt = cur ∧ ¬ e.src = cur then [e.src] else [])

/-- All Cypher variable-length path instances of length `1..fuel` starting
at `cur`, as pairs (list of edge indices, end node).  Edge indices in
`used` are excluded, and an index is never repeated within one path
(Cypher relationship uniqueness); nodes may repeat. -/
def walksAux (g : Graph) (ok : Edge → Bool) (undir : Bool) :
    ℕ → ℕ → List ℕ → List (List ℕ × ℕ)
  | 0, _, _ => []
  | fuel + 1, cur, used =>
    (List.range g.edges.length).flatMap (fun i =>
      if i ∈ used then []
      else
        match g.edges[i]? with
        | none => []
        | some e =>
          if ok e then
            (nexts e cur undir).flatMap (fun nxt =>
              ([i], nxt) ::
                (walksAux g ok undir fuel nxt (i :: used)).map
                  (fun q => (i :: q.1, q.2)))
          else [])

/-- Validity of a walk (a list of edge indices) from `a` to `b`: each hop
uses an existing edge passing the `ok` filter, chained through `nexts`.
No distinctness is required here; this is the raw walk semantics. -/
def isWalk (g : Graph) (ok : Edge → Bool) (undir : Bool) :
    ℕ → List ℕ → ℕ → Bool
  | a, [], b => a == b
  | a, i :: p, b =>
    match g.edges[i]? with
    | none => false
    | some e =>
      ok e && (nexts e a undir).any (fun n => isWalk g ok undir n p b)

/-- The qualifying capture paths out of node `a`:
`(seed)-[:OWNS*1..5]->(...)` with `ALL(rel IN relationships(path) WHERE
rel.percentage >= 50)`, as used both by the batch pass and by the chain
enumeration query. -/
def capturePaths (g : Graph) (a : ℕ) : List (List ℕ × ℕ) :=
  walksAux g okCapture false 5 a []

/-- Seed test of the capture queries: `(seed:Company)` carrying
`entity_list` or `meu_list`. -/
def seedOK (n : Node) : Bool :=
  n.label == Label.Company && flaggedListed n

/-- Target test of the batch pass: `(target:Company)` with
`NOT ('entity_list' IN target.risk_flags)`. -/
def targetOK (n : Node) : Bool :=
  n.label == Label.Company && !(n.risk_flags.contains "entity_list")

/-- The batch pass's match for one node `n`: the first seed (in node-list
order) that is a flagged Company distinct from `n` with a qualifying
`OWNS*1..5` path of all-`>=50` hops ending at `n`; returns the
`bis_50_reason` string the batch pass writes, or `none` when `n` is not a
matched target.  Deterministic rendering of `compute_bis50_captures`'s
`MATCH ... SET` in `scripts/process/load_neo4j.py`. -/
def findMarkingSeedReason (g : Graph) (n : Node) : Option String :=
  if targetOK n then
    (g.nodes.find? (fun seed =>
        seedOK seed && !(seed.id == n.id) &&
          (capturePaths g seed.id).any (fun q => q.2 == n.id))).map
      (fun seed => "Owned >=50% by " ++ seed.name_en)
  else none

/-- The effect of the batch pass on a single node: matched targets get
`bis_50_captured = true` and the reason string; other nodes are left
unchanged. -/
def bis50MarkNode (g : Graph) (n : Node) : Node :=
  match findMarkingSeedReason g n with
  | some r => { n with bis_50_captured := true, bis_50_reason := some r }
  | none => n

/-- The batch capture computation `compute_bis50_captures`: every node of
the graph is updated against the pre-pass snapshot (Cypher evaluates the
whole `MATCH` against the snapshot before `SET` takes effect). -/
def compute_bis50_captures (g : Graph) : Graph :=
  { g with nodes := g.nodes.map (bis50MarkNode g) }

/-- One enumerated ownership chain row of the chain query inside
`get_bis50_analysis`: seed id and name, the node sequence of the path
(ids with `name_en`), the hop percentages, and the reduced effective
percentage. -/
structure ChainRec where
  seed_id : ℕ
  seed_name : String
  chain : List (ℕ × String)
  percentages : List (Option ℚ)
  effective_percentage : ℚ
  deriving DecidableEq, Repr

/-- Edge percentage by index, with Cypher `null` read as `0` only where the
reduce expression would propagate it (qualifying paths always carry a
present percentage, so the default is never observed there). -/
def pctOf (g : Graph) (i : ℕ) : ℚ :=
  ((g.edges[i]?).bind (fun e => e.percentage)).getD 0

/-- Name of the node with a given id, empty when absent (`n.name_en`). -/
def nameOf (g : Graph) (id : ℕ) : String :=
  ((findNode g id).map (fun n => n.name_en)).getD ""

/-- The node-id sequence of a directed walk `p` out of `a`. -/
def walkNodeIds (g : Graph) (a : ℕ) (p : List ℕ) : List ℕ :=
  a :: p.filterMap (fun i => (g.edges[i]?).map (fun e => e.tgt))

/-- The chain record the chain query returns for one path: `nodes(path)`
with names, `[r IN relationships(path) | r.percentage]`, and
`reduce(pct = 100.0, r IN relationships(path) | pct * r.percentage / 100)`. -/
def chainRecOf (g : Graph) (seed : Node) (p : List ℕ) : ChainRec :=
  { seed_id := seed.id
    seed_name := seed.name_en
    chain := (walkNodeIds g seed.id p).map (fun id => (id, nameOf g id))
    percentages := p.map (fun i => (g.edges[i]?).bind (fun e => e.percentage))
    effective_percentage := p.foldl (fun acc i => acc * pctOf g i / 100) 100 }

/-- All rows of the chain query
`MATCH path = (seed:Company)-[:OWNS*1..5]->(target {id: $entity_id})
 WHERE (listed seed) AND ALL(rel ... rel.percentage >= 50)`. -/
def chainsFor (g : Graph) (tid : ℕ) : List ChainRec :=
  g.nodes.flatMap (fun seed =>
    if seedOK seed then
      (capturePaths g seed.id).filterMap (fun q =>
        if q.2 == tid then some (chainRecOf g seed q.1) else none)
    else [])

/-- One row of the aggregate query: an `OWNS` edge into the target whose
source node is a listed Company, paired with that owner node. -/
def listedOwnerRows (g : Graph) (tid : ℕ) : List (Edge × Node) :=
  g.edges.filterMap (fun e =>
    if e.etype == "OWNS" && e.tgt == tid then
      match findNode g e.src with
      | some o => if seedOK o then some (e, o) else none
      | none => none
    else none)

/-- `sum(r.percentage)` of the aggregate query (Cypher `sum` skips nulls). -/
def aggregateTotal (g : Graph) (tid : ℕ) : ℚ :=
  ((listedOwnerRows g tid).map (fun r => r.1.percentage.getD 0)).sum

/-- The collected owner rows `{id, name, pct}` of the aggregate query. -/
def aggregateOwners (g : Graph) (tid : ℕ) : List (ℕ × String × Option ℚ) :=
  (listedOwnerRows g tid).map (fun r => (r.2.id, r.2.name_en, r.1.percentage))

/-- The result dictionary of `get_bis50_analysis`; keys absent from a given
return branch are `none`. -/
structure CaptureResult where
  entity_id : ℕ
  captured : Bool
  reason : Option String
  is_direct_listing : Option Bool := none
  ownership_chains : Option (List ChainRec) := none
  aggregate_percentage : Option ℚ := none
  listed_owners : Option (List (ℕ × String × Option ℚ)) := none
  deriving DecidableEq, Repr

/-- `get_bis50_analysis` from `api/services/neo4j_service.py`: direct
listing first, then the pre-computed `bis_50_captured` branch with chain
enumeration, then the direct listed-owner aggregate fallback, else not
captured. -/
def get_bis50_analysis (g : Graph) (eid : ℕ) : CaptureResult :=
  match findNode g eid with
  | none =>
    { entity_id := eid, captured := false, reason := some "Entity not found" }
  | some n =>
    if flaggedListed n then
      { entity_id := eid, captured := true,
        reason := some "Directly listed on Entity List/MEU List",
        is_direct_listing := some true, ownership_chains := some [] }
    else if n.bis_50_captured then
      { entity_id := eid, captured := true, reason := n.bis_50_reason,
        is_direct_listing := some false,
        ownership_chains := some (chainsFor g eid) }
    else if (listedOwnerRows g eid) ≠ [] ∧ 50 ≤ aggregateTotal g eid then
      { entity_id := eid, captured := true,
        reason := some ("Aggregate ownership by listed parties: " ++
          toString (aggregateTotal g eid) ++ "%"),
        is_direct_listing := some false,
        aggregate_percentage := some (aggregateTotal g eid),
        listed_owners := some (aggregateOwners g eid) }
    else
      { entity_id := eid, captured := false,
        reason := some "Not captured by BIS 50% rule" }

/-- The network result of `get_entity_network`: node ids, the traversed
edges (original records, hence original source/target orientation), and
the center id. -/
structure NetworkRes where
  nodes : List ℕ
  edges : List Edge
  center_id : ℕ
  deriving DecidableEq, Repr

/-- The walks matched by the network query's variable-length undirected
pattern `(center)-[r:OWNS|OFFICER_OF|CONTROLS|SUBSIDIARY_OF*1..depth]-(connected)`. -/
def networkWalks (g : Graph) (cid : ℕ) (depth : ℕ) : List (List ℕ × ℕ) :=
  walksAux g okNetwork true depth cid []

/-- `get_entity_network` from `api/services/neo4j_service.py`.  When the
center is absent, or when no variable-length match exists (the `UNWIND` of
the union branch's empty relationship list produces zero rows, so the
final aggregation returns no row), the service returns empty node and edge
lists with the center id. -/
def get_entity_network (g : Graph) (cid : ℕ) (depth : ℕ) : NetworkRes :=
  match findNode g cid with
  | none => { nodes := [], edges := [], center_id := cid }
  | some _ =>
    let ws := networkWalks g cid depth
    if ws = [] then { nodes := [], edges := [], center_id := cid }
    else
      { nodes := (cid :: ws.map (fun q => q.2)).dedup
        edges := (ws.flatMap (fun q => q.1)).dedup.filterMap
          (fun i => g.edges[i]?)
        center_id := cid }

/-- The `/api/entity/{id}/network` endpoint from `api/routers/entities.py`:
verifies existence through `get_entity` and raises a 404 `not found`
result before calling the network query. -/
def networkEndpoint (g : Graph) (cid : ℕ) (depth : ℕ) :
    Except String NetworkRes :=
  match findNode g cid with
  | none => Except.error ("Entity not found: " ++ toString cid)
  | some _ => Except.ok (get_entity_network g cid depth)

/-- A timeline event as read by `analyze_timeline_patterns`: the event
dictionary's `id`, `event_type`, and `date` (absent or empty date strings
are discarded by the code). -/
structure TEvent where
  eid : String
  event_type : String
  date : Option String
  deriving DecidableEq, Repr

/-- Leap-year test of the proleptic Gregorian calendar. -/
def isLeap (y : ℕ) : Bool :=
  (y % 4 == 0 && y % 100 != 0) || y % 400 == 0

/-- Days in a month of the proleptic Gregorian calendar. -/
def daysInMonth (y m : ℕ) : ℕ :=
  if m == 2 then (if isLeap y then 29 else 28)
  else if m == 4 || m == 6 || m == 9 || m == 11 then 30
  else 31

/-- Day count of a Gregorian civil date, for computing day differences the
way Python's `datetime` subtraction does (both are proleptic Gregorian, so
differences agree). -/
def toDayCount (y m d : ℕ) : ℤ :=
  let yy : ℕ := if m ≤ 2 then y - 1 else y
  let era : ℕ := yy / 400
  let yoe : ℕ := yy % 400
  let mp : ℕ := (m + 9) % 12
  let doy : ℕ := (153 * mp + 2) / 5 + (d - 1)
  let doe : ℕ := yoe * 365 + yoe / 4 - yoe / 100 + doy
  (era * 146097 + doe : ℤ) - 719468

/-- Split a character list on the dash character (the field separator of
the `'%Y-%m-%d'` format). -/
def splitDashAux : List Char → List Char → List (List Char)
  | [], acc => [acc.reverse]
  | c :: rest, acc =>
    if c = '-' then acc.reverse :: splitDashAux rest []
    else splitDashAux rest (c :: acc)

/-- Value of a digit list read in base 10. -/
def digitsToNat (cs : List Char) : ℕ :=
  cs.foldl (fun acc c => acc * 10 + (c.toNat - 48)) 0

/-- All characters are decimal digits. -/
def allDigits (cs : List Char) : Bool :=
  cs.all (fun c => c.isDigit)

/-- Parse of `datetime.strptime(date_str, '%Y-%m-%d')` followed by date
validation: a 4-digit year (year 0 is rejected by `datetime`), a 1-2 digit
month in `1..12`, a 1-2 digit day valid for that month; anything else
raises `ValueError` and the event is discarded.  Returns the day count. -/
def parseDate (s : String) : Option ℤ :=
  match splitDashAux s.toList [] with
  | [ys, ms, ds] =>
    if (ys.length == 4 && allDigits ys &&
        decide (1 ≤ ms.length) && decide (ms.length ≤ 2) && allDigits ms &&
        decide (1 ≤ ds.length) && decide (ds.length ≤ 2) && allDigits ds) then
      let y := digitsToNat ys
      let m := digitsToNat ms
      let d := digitsToNat ds
      if (decide (1 ≤ y) && decide (1 ≤ m) && decide (m ≤ 12) &&
          decide (1 ≤ d) && decide (d ≤ daysInMonth y m)) then
        some (toDayCount y m d)
      else none
    else none
  | _ => none

/-- An event bucket entry: parsed day count paired with the event. -/
def datedOf (ev : TEvent) : Option (ℤ × TEvent) :=
  match ev.date with
  | none => none
  | some s => if s == "" then none else (parseDate s).map (fun t => (t, ev))

/-- The dated events of one `event_type` bucket, in input order. -/
def bucket (events : List TEvent) (types : List String) : List (ℤ × TEvent) :=
  events.filterMap (fun ev =>
    if types.contains ev.event_type then datedOf ev else none)

/-- One detected pattern entry of `analyze_timeline_patterns`. -/
structure Pattern where
  ptype : String
  severity : String
  description : String
  details : String
  related_events : List String
  deriving DecidableEq, Repr

/-- The original date string of a bucketed event (`event.get('date')`,
always present for bucketed events). -/
def dateStrOf (ev : TEvent) : String := ev.date.getD ""

/-- The restructure-near-sanction pattern entry for one qualifying pair. -/
def restructurePattern (s r : ℤ × TEvent) : Pattern :=
  { ptype := "restructure_near_sanction"
    severity := "high"
    description := "Corporate restructure " ++
      (if r.1 < s.1 then "before" else "after") ++ " sanction listing"
    details := "Restructure on " ++ dateStrOf r.2 ++
      " occurred within 6 months of sanction on " ++ dateStrOf s.2
    related_events := [r.2.eid, s.2.eid] }

/-- The name-change-after-sanction pattern entry for one qualifying pair. -/
def nameChangePattern (s n : ℤ × TEvent) : Pattern :=
  { ptype := "name_change_after_sanction"
    severity := "medium"
    description := "Name change following sanction listing"
    details := "Name changed on " ++ dateStrOf n.2 ++
      " within 1 year of sanction on " ++ dateStrOf s.2
    related_events := [n.2.eid, s.2.eid] }

/-- The ownership-change-after-sanction pattern entry for one qualifying
pair. -/
def ownershipChangePattern (s o : ℤ × TEvent) : Pattern :=
  { ptype := "ownership_change_after_sanction"
    severity := "high"
    description := "Ownership transfer following sanction listing"
    details := "Ownership changed on " ++ dateStrOf o.2 ++
      " within 1 year of sanction on " ++ dateStrOf s.2
    related_events := [o.2.eid, s.2.eid] }

/-- `analyze_timeline_patterns` from `api/routers/entities.py`: bucket the
dated events by type, then for every sanction event emit one pattern entry
per restructure within 180 days either way, per name change strictly after
and within 365 days, and per ownership change strictly after and within
365 days. -/
def analyze_timeline_patterns (events : List TEvent) : List Pattern :=
  let sanctions := bucket events ["sanction_added", "sanction_expanded"]
  let restructures := bucket events ["restructure"]
  let nameChanges := bucket events ["name_change"]
  let ownerChanges := bucket events ["ownership_change"]
  sanctions.flatMap (fun s =>
    (restructures.filterMap (fun r =>
      if (r.1 - s.1).natAbs ≤ 180 then some (restructurePattern s r)
      else none)) ++
    (nameChanges.filterMap (fun n =>
      if s.1 < n.1 ∧ n.1 - s.1 ≤ 365 then some (nameChangePattern s n)
      else none)) ++
    (ownerChanges.filterMap (fun o =>
      if s.1 < o.1 ∧ o.1 - s.1 ≤ 365 then some (ownershipChangePattern s o)
      else none)))

/-- The risk-level derivation of `screen_entities` in
`api/services/neo4j_service.py`, from the matched entity's `risk_flags`
and `risk_score` (`or 0` defaults applied by the caller). -/
def screen_risk_level (flags : List String) (score : ℤ) : String :=
  if flags.contains "entity_list" || flags.contains "meu_list" then "critical"
  else if flags.contains "ns_cmic" || flags.contains "cmc_1260h" then "high"
  else if flags.contains "bis_50_captured" then "high"
  else if 70 ≤ score then "medium"
  else if 40 ≤ score then "low"
  else "clear"

/-- The per-result screening fields the details mapping reads: the derived
`risk_level` and the `bis_50_captured` flag
(`"bis_50_captured" in risk_flags`). -/
def screenResultOf (flags : List String) (score : ℤ) : String × Bool :=
  (screen_risk_level flags score, flags.contains "bis_50_captured")

/-- The consumer-facing `details` text generated per result by
`screen_entities` in `api/routers/screening.py` (lines 76-100): fixed text
per tier, except that the `high` tier branches on the result's
`bis_50_captured` field. -/
def screen_details (risk_level : String) (bis50 : Bool) : String :=
  if risk_level == "critical" then
    "BLOCKED - Entity is on BIS Entity List or OFAC SDN. All transactions prohibited."
  else if risk_level == "high" && bis50 then
    "HIGH RISK - Entity captured by BIS 50% Rule through ownership by listed party."
  else if risk_level == "high" then
    "HIGH RISK - Entity on NS-CMIC or CMC-1260H list. Investment restrictions apply."
  else if risk_level == "medium" then
    "ELEVATED RISK - Enhanced due diligence recommended."
  else if risk_level == "low" then
    "LOW RISK - Standard due diligence recommended."
  else if risk_level == "clear" then
    "CLEAR - No significant risk indicators found."
  else
    "UNKNOWN - Entity not found in database. Manual review required."

section WalkLemmas

variable (g : Graph) (ok : Edge → Bool) (undir : Bool)

/-- Characterization of the path enumerator: the enumerated pairs are
exactly the nonempty walks of length at most `fuel` whose edge indices are
pairwise distinct and avoid `used`. -/
theorem walksAux_mem : ∀ (fuel a : ℕ) (used p : List ℕ) (b : ℕ),
    (p, b) ∈ walksAux g ok undir fuel a used ↔
      p ≠ [] ∧ p.length ≤ fuel ∧ p.Nodup ∧ (∀ i ∈ p, i ∉ used) ∧
        isWalk g ok undir a p b = true := by
  intro fuel
  induction fuel with
  | zero =>
    intro a used p b
    simp only [walksAux, List.not_mem_nil, false_iff]
    rintro ⟨hne, hlen, -, -, -⟩
    exact hne (List.eq_nil_of_length_eq_zero (Nat.le_zero.mp hlen))
  | succ fuel ih =>
    intro a used p b
    constructor
    · intro h
      simp only [walksAux, List.mem_flatMap, List.mem_range] at h
      obtain ⟨i, hilt, hmem⟩ := h
      by_cases hu : i ∈ used
      · simp [hu] at hmem
      rw [if_neg hu] at hmem
      cases hedge : g.edges[i]? with
      | none => rw [hedge] at hmem; simp at hmem
      | some e =>
        rw [hedge] at hmem
        dsimp only at hmem
        by_cases hok : ok e = true
        · rw [if_pos hok, List.mem_flatMap] at hmem
          obtain ⟨nxt, hnxt, hmem⟩ := hmem
          rcases List.mem_cons.mp hmem with heq | hmem
          · rw [Prod.mk.injEq] at heq
            obtain ⟨rfl, rfl⟩ := heq
            refine ⟨by simp, by simp, by simp, ?_, ?_⟩
            · intro j hj
              rw [List.mem_singleton.mp hj]; exact hu
            · simp only [isWalk, hedge, hok, Bool.true_and, List.any_eq_true]
              exact ⟨b, hnxt, by simp [isWalk]⟩
          · rw [List.mem_map] at hmem
            obtain ⟨q, hq, heq⟩ := hmem
            rw [Prod.mk.injEq] at heq
            obtain ⟨hp, hb⟩ := heq
            obtain ⟨hne', hlen', hnd', hus', hw'⟩ := (ih nxt (i :: used) q.1 q.2).mp hq
            subst hp
            subst hb
            refine ⟨by simp, by simpa using Nat.succ_le_succ hlen', ?_, ?_, ?_⟩
            · exact List.nodup_cons.mpr
                ⟨fun hc => (hus' i hc) (List.mem_cons_self i used), hnd'⟩
            · intro j hj
              rcases List.mem_cons.mp hj with rfl | hj
              · exact hu
              · exact fun hc => (hus' j hj) (List.mem_cons_of_mem i hc)
            · simp only [isWalk, hedge, hok, Bool.true_and, List.any_eq_true]
              exact ⟨nxt, hnxt, hw'⟩
        · rw [if_neg hok] at hmem; simp at hmem
    · rintro ⟨hne, hlen, hnd, hus, hw⟩
      cases p with
      | nil => exact absurd rfl hne
      | cons i p' =>
        simp only [isWalk] at hw
        cases hedge : g.edges[i]? with
        | none => rw [hedge] at hw; simp at hw
        | some e =>
          rw [hedge] at hw
          dsimp only at hw
          rw [Bool.and_eq_true] at hw
          obtain ⟨hok, hany⟩ := hw
          obtain ⟨nxt, hnxt, hw'⟩ := List.any_eq_true.mp hany
          have hilt : i < g.edges.length :=
            (List.getElem?_eq_some.mp hedge).1
          have hu : i ∉ used := hus i (List.mem_cons_self i p')
          simp only [walksAux, List.mem_flatMap, List.mem_range]
          refine ⟨i, hilt, ?_⟩
          rw [if_neg hu, hedge]
          dsimp only
          rw [if_pos hok, List.mem_flatMap]
          refine ⟨nxt, hnxt, ?_⟩
          cases p' with
          | nil =>
            have : nxt = b := by simpa [isWalk] using hw'
            subst this
            exact List.mem_cons_self ..
          | cons j p'' =>
            refine List.mem_cons_of_mem _ ?_
            rw [List.mem_map]
            refine ⟨(j :: p'', b), ?_, rfl⟩
            refine (ih nxt (i :: used) (j :: p'') b).mpr
              ⟨by simp, by simpa using hlen, (List.nodup_cons.mp hnd).2, ?_, hw'⟩
            intro k hk
            rw [List.mem_cons]
            rintro (rfl | hkused)
            · exact (List.nodup_cons.mp hnd).1 hk
            · exact hus k (List.mem_cons_of_mem i hk) hkused

end WalkLemmas

/-- One-step unfolding of directed walk validity: the hop edge must start
at the current node and the walk continues from its target. -/
theorem isWalk_cons_dir (g : Graph) (ok : Edge → Bool) (i : ℕ) (p : List ℕ)
    (a b : ℕ) :
    isWalk g ok false a (i :: p) b = true ↔
      ∃ e, g.edges[i]? = some e ∧ ok e = true ∧ e.src = a ∧
        isWalk g ok false e.tgt p b = true := by
  cases hedge : g.edges[i]? with
  | none => simp [isWalk, hedge]
  | some e =>
    by_cases hsrc : e.src = a
    · simp [isWalk, hedge, nexts, hsrc]
    · simp [isWalk, hedge, nexts, hsrc]

/-- Splitting walk validity across list concatenation. -/
theorem isWalk_append (g : Graph) (ok : Edge → Bool) (undir : Bool) :
    ∀ (p q : List ℕ) (a b : ℕ),
      isWalk g ok undir a (p ++ q) b = true ↔
        ∃ c, isWalk g ok undir a p c = true ∧
          isWalk g ok undir c q b = true := by
  intro p
  induction p with
  | nil =>
    intro q a b
    constructor
    · intro h
      exact ⟨a, by simp [isWalk], by simpa using h⟩
    · rintro ⟨c, hc, h⟩
      have : a = c := by simpa [isWalk] using hc
      subst this
      simpa using h
  | cons i p ih =>
    intro q a b
    cases hedge : g.edges[i]? with
    | none => simp [isWalk, hedge]
    | some e =>
      simp only [List.cons_append, isWalk, hedge, Bool.and_eq_true,
        List.any_eq_true]
      constructor
      · rintro ⟨hok, nxt, hnxt, hw⟩
        obtain ⟨c, h1, h2⟩ := (ih q nxt b).mp hw
        exact ⟨c, ⟨hok, nxt, hnxt, h1⟩, h2⟩
      · rintro ⟨c, ⟨hok, nxt, hnxt, h1⟩, h2⟩
        exact ⟨hok, nxt, hnxt, (ih q nxt b).mpr ⟨c, h1, h2⟩⟩

/-- A list with an element of multiplicity two splits around the two
occurrences. -/
theorem two_le_count_split {α : Type} [DecidableEq α] :
    ∀ (l : List α) (x : α), 2 ≤ l.count x →
      ∃ u v w, l = u ++ (x :: (v ++ (x :: w))) := by
  intro l
  induction l with
  | nil => intro x h; simp at h
  | cons y rest ih =>
    intro x h
    by_cases hxy : y = x
    · subst hxy
      have h1 : 1 ≤ rest.count y := by
        have h' := h
        rw [List.count_cons_self] at h'
        omega
      have hmem : y ∈ rest := List.count_pos_iff.mp (by omega)
      obtain ⟨v, w, hvw⟩ := List.append_of_mem hmem
      exact ⟨[], v, w, by rw [hvw]; simp⟩
    · have h2 : 2 ≤ rest.count x := by
        rwa [List.count_cons_of_ne (fun hc => hxy hc.symm)] at h
      obtain ⟨u, v, w, huvw⟩ := ih x h2
      exact ⟨y :: u, v, w, by rw [huvw]; simp⟩

/-- Loop removal for directed walks: any valid directed walk can be
shortened to a walk with pairwise-distinct edge indices, between the same
endpoints, no longer than the original, and nonempty when the original
was. -/
theorem walk_to_nodup (g : Graph) (ok : Edge → Bool) :
    ∀ (n : ℕ) (p : List ℕ) (a b : ℕ), p.length ≤ n →
      isWalk g ok false a p b = true →
      ∃ q, q.Nodup ∧ q.length ≤ p.length ∧ (p ≠ [] → q ≠ []) ∧
        isWalk g ok false a q b = true := by
  intro n
  induction n with
  | zero =>
    intro p a b hlen hw
    exact ⟨p, by simp [List.eq_nil_of_length_eq_zero (Nat.le_zero.mp hlen)],
      le_refl _, fun h => h, hw⟩
  | succ n ih =>
    intro p a b hlen hw
    by_cases hnd : p.Nodup
    · exact ⟨p, hnd, le_refl _, fun h => h, hw⟩
    · have : ∃ x, 2 ≤ p.count x := by
        by_contra hc
        push_neg at hc
        exact hnd (List.nodup_iff_count_le_one.mpr (fun x => by
          have := hc x; omega))
      obtain ⟨x, hx⟩ := this
      obtain ⟨u, v, w, rfl⟩ := two_le_count_split p x hx
      obtain ⟨c1, hu, hrest⟩ :=
        (isWalk_append g ok false u (x :: (v ++ (x :: w))) a b).mp hw
      obtain ⟨e, hedge, hok, hsrc, hrest2⟩ :=
        (isWalk_cons_dir g ok x (v ++ (x :: w)) c1 b).mp hrest
      obtain ⟨c2, hv, hrest3⟩ :=
        (isWalk_append g ok false v (x :: w) e.tgt b).mp hrest2
      obtain ⟨e', hedge', hok', hsrc', hw2⟩ :=
        (isWalk_cons_dir g ok x w c2 b).mp hrest3
      rw [hedge] at hedge'
      cases hedge'
      have hshort : isWalk g ok false a (u ++ (x :: w)) b = true := by
        refine (isWalk_append g ok false u (x :: w) a b).mpr ⟨c1, hu, ?_⟩
        exact (isWalk_cons_dir g ok x w c1 b).mpr ⟨e, hedge, hok, hsrc, hw2⟩
      have hlt : (u ++ (x :: w)).length <
          (u ++ (x :: (v ++ (x :: w)))).length := by
        simp
        omega
      obtain ⟨q, hqnd, hqlen, hqne, hqw⟩ :=
        ih (u ++ (x :: w)) a b (by
          have h' := hlen
          simp at h' ⊢
          omega) hshort
      refine ⟨q, hqnd, le_trans hqlen (le_of_lt hlt), fun _ => ?_, hqw⟩
      intro hq
      subst hq
      exact hqne (by simp) rfl

/-- Closed form of the chain query's `reduce` expression. -/
theorem foldl_effective (g : Graph) :
    ∀ (p : List ℕ) (init : ℚ),
      p.foldl (fun acc i => acc * pctOf g i / 100) init =
        init * (p.map (pctOf g)).prod / 100 ^ p.length := by
  intro p
  induction p with
  | nil => intro init; simp
  | cons i p ih =>
    intro init
    rw [List.foldl_cons, ih]
    simp only [List.map_cons, List.prod_cons, List.length_cons]
    field_simp
    ring

/-- The effective percentage of a nonempty chain is the product of the hop
percentages divided by `100 ^ (k - 1)`. -/
theorem effective_closed_form (g : Graph) (p : List ℕ) (hne : p ≠ []) :
    p.foldl (fun acc i => acc * pctOf g i / 100) 100 =
      (p.map (pctOf g)).prod / 100 ^ (p.length - 1) := by
  rw [foldl_effective]
  obtain ⟨k, hk⟩ : ∃ k, p.length = k + 1 :=
    ⟨p.length - 1, (Nat.succ_pred_eq_of_pos (List.length_pos.mpr hne)).symm⟩
  rw [hk]
  simp only [Nat.add_sub_cancel]
  rw [pow_succ]
  field_simp
  ring

/-- Propositional reading of the seed test. -/
theorem seedOK_iff (n : Node) :
    seedOK n = true ↔ n.label = Label.Company ∧
      ("entity_list" ∈ n.risk_flags ∨ "meu_list" ∈ n.risk_flags) := by
  simp [seedOK, flaggedListed]

/-- Propositional reading of the batch target test. -/
theorem targetOK_iff (n : Node) :
    targetOK n = true ↔ n.label = Label.Company ∧
      "entity_list" ∉ n.risk_flags := by
  simp [targetOK]

/-- Propositional reading of the direct-listing test. -/
theorem flaggedListed_iff (n : Node) :
    flaggedListed n = true ↔
      "entity_list" ∈ n.risk_flags ∨ "meu_list" ∈ n.risk_flags := by
  simp [flaggedListed]

/-- C1's own wording of the batch capture condition for a node `n` (note:
no label restriction on the reached node): `n` does not carry
`entity_list` and is reachable from some distinct Company seed carrying
`entity_list` or `meu_list` by a forward `OWNS` walk of 1 to 5 hops, every
hop having a present percentage that is at least 50. -/
def c1ClaimMarked (g : Graph) (n : Node) : Prop :=
  "entity_list" ∉ n.risk_flags ∧
    ∃ seed ∈ g.nodes, seed.label = Label.Company ∧
      ("entity_list" ∈ seed.risk_flags ∨ "meu_list" ∈ seed.risk_flags) ∧
      seed.id ≠ n.id ∧
      ∃ p : List ℕ, p ≠ [] ∧ p.length ≤ 5 ∧
        isWalk g okCapture false seed.id p n.id = true

/-- C2's own wording of a qualifying ownership chain to target id `tid`
(note: no label restriction on the seed and no edge-distinctness): a walk
of 1 to 5 hops from a node carrying `entity_list` or `meu_list`, every hop
an `OWNS` edge with percentage at least 50. -/
def c2ClaimChain (g : Graph) (tid : ℕ) (seed : Node) (p : List ℕ) : Prop :=
  seed ∈ g.nodes ∧
    ("entity_list" ∈ seed.risk_flags ∨ "meu_list" ∈ seed.risk_flags) ∧
    p ≠ [] ∧ p.length ≤ 5 ∧ isWalk g okCapture false seed.id p tid = true

/-- C4's own wording of the aggregate sum (note: no label restriction on
the owners): the sum of the present percentages of `OWNS` edges into the
target whose source node carries `entity_list` or `meu_list`. -/
def c4ClaimSum (g : Graph) (tid : ℕ) : ℚ :=
  (g.edges.filterMap (fun e =>
    if e.etype == "OWNS" && e.tgt == tid then
      match findNode g e.src with
      | some o => if flaggedListed o then e.percentage else none
      | none => none
    else none)).sum

/-- The edge-type filter C7 claims for the network traversal
(`OWNS`, `OFFICER_OF`, `CONTROLS` only). -/
def okNetworkClaim (e : Edge) : Bool :=
  e.etype == "OWNS" || e.etype == "OFFICER_OF" || e.etype == "CONTROLS"

/-- C7's own wording of which nodes the network result contains: the
center, plus every node reachable from it within `depth` undirected hops
along `OWNS`/`OFFICER_OF`/`CONTROLS` edges. -/
def c7ClaimNode (g : Graph) (cid depth nid : ℕ) : Prop :=
  nid = cid ∨ ∃ p : List ℕ, p ≠ [] ∧ p.length ≤ depth ∧
    isWalk g okNetworkClaim true cid p nid = true

/-- Fixture: a flagged Company seed owning a Person node at 60%
(discriminates C1's unlabelled targets from the code's `target:Company`). -/
def gPersonTarget : Graph :=
  { nodes := [
      { id := 0, label := .Company, name_en := "S", risk_flags := ["entity_list"] },
      { id := 1, label := .Person, name_en := "P", risk_flags := [] }],
    edges := [{ src := 0, tgt := 1, etype := "OWNS", percentage := some 60 }] }

/-- The Person node of `gPersonTarget`. -/
def pPersonNode : Node :=
  { id := 1, label := .Person, name_en := "P", risk_flags := [] }

/-- Fixture: a flagged Person owning a pre-captured Company at 60%
(discriminates C2's unlabelled seeds from the code's `seed:Company`, and
C4's unlabelled owners from the code's `listed:Company`). -/
def gPersonSeed : Graph :=
  { nodes := [
      { id := 0, label := .Person, name_en := "P", risk_flags := ["entity_list"] },
      { id := 1, label := .Company, name_en := "T", risk_flags := [],
        bis_50_captured := true, bis_50_reason := some "Owned >=50% by P" }],
    edges := [{ src := 0, tgt := 1, etype := "OWNS", percentage := some 60 }] }

/-- The Person seed node of `gPersonSeed`. -/
def pSeedNode : Node :=
  { id := 0, label := .Person, name_en := "P", risk_flags := ["entity_list"] }

/-- Fixture: a flagged Person owning an unflagged, uncaptured Company at
60% (C4 counterexample). -/
def gPersonOwner : Graph :=
  { nodes := [
      { id := 0, label := .Person, name_en := "P", risk_flags := ["entity_list"] },
      { id := 1, label := .Company, name_en := "T", risk_flags := [] }],
    edges := [{ src := 0, tgt := 1, etype := "OWNS", percentage := some 60 }] }

/-- Fixture: listed Company `S` in a 60% ownership cycle with `Y`, plus a
60% edge to pre-captured `X`; the relationship-distinct path
`S -> Y -> S -> X` revisits `S`. -/
def gRevisit : Graph :=
  { nodes := [
      { id := 0, label := .Company, name_en := "S", risk_flags := ["entity_list"] },
      { id := 1, label := .Company, name_en := "Y", risk_flags := [] },
      { id := 2, label := .Company, name_en := "X", risk_flags := [],
        bis_50_captured := true, bis_50_reason := some "Owned >=50% by S" }],
    edges := [
      { src := 0, tgt := 1, etype := "OWNS", percentage := some 60 },
      { src := 1, tgt := 0, etype := "OWNS", percentage := some 60 },
      { src := 0, tgt := 2, etype := "OWNS", percentage := some 60 }] }

/-- The seed node of `gRevisit`. -/
def sRevisitNode : Node :=
  { id := 0, label := .Company, name_en := "S", risk_flags := ["entity_list"] }

/-- Fixture: a pure two-node `OWNS` cycle `A -> B -> A` with `A` listed
(C6's cycle-safety graph). -/
def gCycle : Graph :=
  { nodes := [
      { id := 0, label := .Company, name_en := "A", risk_flags := ["entity_list"] },
      { id := 1, label := .Company, name_en := "B", risk_flags := [] }],
    edges := [
      { src := 0, tgt := 1, etype := "OWNS", percentage := some 60 },
      { src := 1, tgt := 0, etype := "OWNS", percentage := some 60 }] }

/-- Fixture: center with a single `SUBSIDIARY_OF` edge (C7). -/
def gSubsidiary : Graph :=
  { nodes := [
      { id := 0, label := .Company, name_en := "C", risk_flags := [] },
      { id := 1, label := .Company, name_en := "Z", risk_flags := [] }],
    edges := [{ src := 0, tgt := 1, etype := "SUBSIDIARY_OF" }] }

/-- Fixture: a single isolated Company (C7 and C9). -/
def gIsolated : Graph :=
  { nodes := [{ id := 0, label := .Company, name_en := "C", risk_flags := [] }],
    edges := [] }

/-- Fixture: a directly listed, pre-captured Company owned 80% by a listed
Company (C3: direct listing wins over everything else). -/
def gDirect : Graph :=
  { nodes := [
      { id := 0, label := .Company, name_en := "A", risk_flags := ["entity_list"] },
      { id := 1, label := .Company, name_en := "D", risk_flags := ["meu_list"],
        bis_50_captured := true, bis_50_reason := some "Owned >=50% by A" }],
    edges := [{ src := 0, tgt := 1, etype := "OWNS", percentage := some 80 }] }

/-- The directly listed target node of `gDirect`. -/
def dDirectNode : Node :=
  { id := 1, label := .Company, name_en := "D", risk_flags := ["meu_list"],
    bis_50_captured := true, bis_50_reason := some "Owned >=50% by A" }

/-- C10 counterexample: two screening results derived from existing flag
sets both land in the `high` tier, yet the router's details text differs
between them (it branches on the result's `bis_50_captured` field inside
the `high` tier), so the details string is not a function of `risk_level`
alone. -/
theorem c10_counterexample :
    (screenResultOf ["ns_cmic"] 0).1 = "high" ∧
    (screenResultOf ["bis_50_captured"] 0).1 = "high" ∧
    screen_details (screenResultOf ["ns_cmic"] 0).1
        (screenResultOf ["ns_cmic"] 0).2 ≠
      screen_details (screenResultOf ["bis_50_captured"] 0).1
        (screenResultOf ["bis_50_captured"] 0).2 := by
  decide

/-- C10 (amended): the consumer-facing details text is a function of the
pair (risk_level, bis_50_captured); for every tier other than `high` the
text depends on the risk level alone, while the `high` tier carries two
distinct texts selected by the result's `bis_50_captured` field. -/
theorem c10_details_by_tier :
    (∀ (lvl : String) (b b' : Bool), lvl ≠ "high" →
      screen_details lvl b = screen_details lvl b') ∧
    screen_details "high" true ≠ screen_details "high" false := by
  constructor
  · intro lvl b b' h
    have hh : (lvl == "high") = false := by
      simpa using h
    simp [screen_details, hh]
  · decide

/-- C10 witness: the tier-invariance applied at the `medium` tier. -/
theorem c10_details_by_tier_witness :
    ("medium" : String) ≠ "high" ∧
      screen_details "medium" true = screen_details "medium" false :=
  ⟨by decide, c10_details_by_tier.1 "medium" true false (by decide)⟩

/-- C3 counterexample: for a directly listed entity the analysis does
return captured with empty chains, but its reason string is
`Directly listed on Entity List/MEU List`, not the claimed
`Directly listed`. -/
theorem c3_counterexample :
    flaggedListed dDirectNode = true ∧
    findNode gDirect 1 = some dDirectNode ∧
    (get_bis50_analysis gDirect 1).captured = true ∧
    (get_bis50_analysis gDirect 1).is_direct_listing = some true ∧
    (get_bis50_analysis gDirect 1).ownership_chains = some [] ∧
    (get_bis50_analysis gDirect 1).reason ≠ some "Directly listed" := by
  decide

/-- C3 (amended): for every existing entity whose `risk_flags` contain
`entity_list` or `meu_list`, the analysis short-circuits to the
direct-listing record: captured, `is_direct_listing = true`, the fixed
reason `Directly listed on Entity List/MEU List`, an empty chain list, and
no aggregate fields — regardless of `bis_50_captured` or any reachable
ownership chain. -/
theorem c3_direct_listing (g : Graph) (eid : ℕ) (n : Node)
    (hn : findNode g eid = some n) (hf : flaggedListed n = true) :
    get_bis50_analysis g eid =
      { entity_id := eid, captured := true,
        reason := some "Directly listed on Entity List/MEU List",
        is_direct_listing := some true, ownership_chains := some [],
        aggregate_percentage := none, listed_owners := none } := by
  unfold get_bis50_analysis
  rw [hn]
  simp [hf]

/-- C3 witness: the direct-listing record on the `gDirect` fixture, whose
target is flagged, pre-captured, and reachable by a qualifying chain. -/
theorem c3_direct_listing_witness :
    get_bis50_analysis gDirect 1 =
      { entity_id := 1, captured := true,
        reason := some "Directly listed on Entity List/MEU List",
        is_direct_listing := some true, ownership_chains := some [],
        aggregate_percentage := none, listed_owners := none } :=
  c3_direct_listing gDirect 1 dDirectNode (by decide) (by decide)

/-- Membership in the enumerated capture paths: exactly the nonempty
relationship-distinct `OWNS`-all-`>=50` walks of at most 5 hops. -/
theorem capturePaths_mem (g : Graph) (a : ℕ) (p : List ℕ) (b : ℕ) :
    (p, b) ∈ capturePaths g a ↔
      p ≠ [] ∧ p.length ≤ 5 ∧ p.Nodup ∧
        isWalk g okCapture false a p b = true := by
  unfold capturePaths
  rw [walksAux_mem]
  simp

/-- Membership in the chain query's result rows. -/
theorem chainsFor_mem (g : Graph) (tid : ℕ) (c : ChainRec) :
    c ∈ chainsFor g tid ↔ ∃ seed p,
      seed ∈ g.nodes ∧ seedOK seed = true ∧ p ≠ [] ∧ p.length ≤ 5 ∧
      p.Nodup ∧ isWalk g okCapture false seed.id p tid = true ∧
      c = chainRecOf g seed p := by
  unfold chainsFor
  rw [List.mem_flatMap]
  constructor
  · rintro ⟨seed, hseed, hmem⟩
    by_cases hs : seedOK seed = true
    · rw [if_pos hs, List.mem_filterMap] at hmem
      obtain ⟨⟨p, b⟩, hq, heq⟩ := hmem
      by_cases hb : (b == tid) = true
      · rw [if_pos hb] at heq
        obtain ⟨hne, hlen, hnd, hw⟩ := (capturePaths_mem g seed.id p b).mp hq
        have hb' : b = tid := by simpa using hb
        subst hb'
        cases heq
        exact ⟨seed, p, hseed, hs, hne, hlen, hnd, hw, rfl⟩
      · rw [if_neg hb] at heq
        cases heq
    · rw [if_neg hs] at hmem
      simp at hmem
  · rintro ⟨seed, p, hseed, hs, hne, hlen, hnd, hw, rfl⟩
    refine ⟨seed, hseed, ?_⟩
    rw [if_pos hs, List.mem_filterMap]
    exact ⟨(p, tid), (capturePaths_mem g seed.id p tid).mpr ⟨hne, hlen, hnd, hw⟩,
      by simp⟩

/-- The Company seed node of `gPersonTarget`. -/
def sPersonNode : Node :=
  { id := 0, label := .Company, name_en := "S", risk_flags := ["entity_list"] }

/-- C1 counterexample: in `gPersonTarget` the Person node satisfies C1's
marking condition as worded (reachable in one 60% `OWNS` hop from a listed
Company seed), yet the batch pass — whose Cypher pattern requires
`target:Company` — matches nothing and leaves the whole graph unchanged. -/
theorem c1_counterexample :
    pPersonNode ∈ gPersonTarget.nodes ∧
    c1ClaimMarked gPersonTarget pPersonNode ∧
    findMarkingSeedReason gPersonTarget pPersonNode = none ∧
    compute_bis50_captures gPersonTarget = gPersonTarget := by
  refine ⟨by decide, ⟨by decide, sPersonNode, by decide, by decide,
    Or.inl (by decide), by decide, [0], by decide, by decide, by decide⟩,
    by decide, by decide⟩

/-- C1 (amended): the batch pass matches a node exactly when it is a
Company satisfying C1's reachability condition; a matched node is marked
captured with a reason citing a qualifying seed, and an unmatched node is
left untouched. -/
theorem c1_batch_capture (g : Graph) (n : Node) :
    ((findMarkingSeedReason g n).isSome ↔
      n.label = Label.Company ∧ c1ClaimMarked g n) ∧
    (∀ r, findMarkingSeedReason g n = some r →
      bis50MarkNode g n =
        { n with bis_50_captured := true, bis_50_reason := some r } ∧
      ∃ seed ∈ g.nodes, seedOK seed = true ∧ seed.id ≠ n.id ∧
        (∃ p, p ≠ [] ∧ p.length ≤ 5 ∧
          isWalk g okCapture false seed.id p n.id = true) ∧
        r = "Owned >=50% by " ++ seed.name_en) ∧
    (findMarkingSeedReason g n = none → bis50MarkNode g n = n) := by
  refine ⟨⟨?_, ?_⟩, ?_, ?_⟩
  · intro h
    unfold findMarkingSeedReason at h
    by_cases ht : targetOK n = true
    · rw [if_pos ht, Option.isSome_map', List.find?_isSome] at h
      obtain ⟨seed, hmem, hpred⟩ := h
      simp only [Bool.and_eq_true] at hpred
      obtain ⟨⟨hs, hne⟩, hany⟩ := hpred
      obtain ⟨⟨p, b⟩, hq, hqe⟩ := List.any_eq_true.mp hany
      obtain ⟨hpne, hplen, hpnd, hw⟩ := (capturePaths_mem g seed.id p b).mp hq
      have hb : b = n.id := by simpa using hqe
      subst hb
      obtain ⟨hlab, hnel⟩ := (targetOK_iff n).mp ht
      obtain ⟨hslab, hsfl⟩ := (seedOK_iff seed).mp hs
      exact ⟨hlab, hnel, seed, hmem, hslab, hsfl, by simpa using hne,
        p, hpne, hplen, hw⟩
    · rw [if_neg ht] at h
      simp at h
  · rintro ⟨hlab, hnel, seed, hmem, hslab, hsfl, hsid, p, hpne, hplen, hw⟩
    have ht : targetOK n = true := (targetOK_iff n).mpr ⟨hlab, hnel⟩
    obtain ⟨q, hqnd, hqlen, hqne, hqw⟩ :=
      walk_to_nodup g okCapture p.length p seed.id n.id le_rfl hw
    unfold findMarkingSeedReason
    rw [if_pos ht, Option.isSome_map', List.find?_isSome]
    refine ⟨seed, hmem, ?_⟩
    have h1 : seedOK seed = true := (seedOK_iff seed).mpr ⟨hslab, hsfl⟩
    have h3 : (capturePaths g seed.id).any (fun q => q.2 == n.id) = true := by
      rw [List.any_eq_true]
      exact ⟨(q, n.id), (capturePaths_mem g seed.id q n.id).mpr
        ⟨hqne hpne, le_trans hqlen hplen, hqnd, hqw⟩, by simp⟩
    simp [h1, h3, hsid]
  · intro r hr
    refine ⟨by unfold bis50MarkNode; rw [hr], ?_⟩
    unfold findMarkingSeedReason at hr
    by_cases ht : targetOK n = true
    · rw [if_pos ht, Option.map_eq_some'] at hr
      obtain ⟨seed, hfind, hrstr⟩ := hr
      have hpred := List.find?_some hfind
      have hmem := List.mem_of_find?_eq_some hfind
      simp only [Bool.and_eq_true] at hpred
      obtain ⟨⟨hs, hne⟩, hany⟩ := hpred
      obtain ⟨⟨p, b⟩, hq, hqe⟩ := List.any_eq_true.mp hany
      obtain ⟨hpne, hplen, hpnd, hw⟩ := (capturePaths_mem g seed.id p b).mp hq
      have hb : b = n.id := by simpa using hqe
      subst hb
      exact ⟨seed, hmem, hs, by simpa using hne, ⟨p, hpne, hplen, hw⟩,
        hrstr.symm⟩
    · rw [if_neg ht] at hr
      cases hr
  · intro hr
    unfold bis50MarkNode
    rw [hr]

/-- The intermediate node of `gRevisit`. -/
def yRevisitNode : Node :=
  { id := 1, label := .Company, name_en := "Y", risk_flags := [] }

/-- C1 witness: in `gRevisit` the batch pass marks `Y` with the reason
citing seed `S`, through the amended characterization. -/
theorem c1_batch_capture_witness :
    bis50MarkNode gRevisit yRevisitNode =
      { yRevisitNode with
          bis_50_captured := true
          bis_50_reason := some "Owned >=50% by S" } ∧
    (findMarkingSeedReason gRevisit yRevisitNode).isSome = true :=
  ⟨((c1_batch_capture gRevisit yRevisitNode).2.1 "Owned >=50% by S"
      (by decide)).1, by decide⟩


/-- The pre-captured node of `gRevisit`. -/
def xRevisitNode : Node :=
  { id := 2, label := .Company, name_en := "X", risk_flags := [],
    bis_50_captured := true, bis_50_reason := some "Owned >=50% by S" }

/-- Every edge index on a valid walk addresses an existing edge. -/
theorem isWalk_indices (g : Graph) (ok : Edge → Bool) (undir : Bool) :
    ∀ (p : List ℕ) (a b : ℕ), isWalk g ok undir a p b = true →
      ∀ i ∈ p, i < g.edges.length := by
  intro p
  induction p with
  | nil => intro a b _ i hi; simp at hi
  | cons j p ih =>
    intro a b hw i hi
    cases hedge : g.edges[j]? with
    | none => simp [isWalk, hedge] at hw
    | some e =>
      simp only [isWalk, hedge, Bool.and_eq_true, List.any_eq_true] at hw
      obtain ⟨-, nxt, hnxt, hw'⟩ := hw
      rcases List.mem_cons.mp hi with rfl | hi
      · exact (List.getElem?_eq_some.mp hedge).1
      · exact ih nxt b hw' i hi

/-- A relationship-distinct walk cannot be longer than the edge list. -/
theorem walk_length_le_edges (g : Graph) (ok : Edge → Bool) (undir : Bool)
    (p : List ℕ) (a b : ℕ) (hnd : p.Nodup)
    (hw : isWalk g ok undir a p b = true) :
    p.length ≤ g.edges.length := by
  have hsub : p ⊆ List.range g.edges.length := fun i hi =>
    List.mem_range.mpr (isWalk_indices g ok undir p a b hw i hi)
  simpa using (List.subperm_of_subset hnd hsub).length_le

/-- The chain field of a chain record has one entry per hop plus the
seed, at most. -/
theorem chainRecOf_chain_length_le (g : Graph) (seed : Node) (p : List ℕ) :
    (chainRecOf g seed p).chain.length ≤ p.length + 1 := by
  simp only [chainRecOf, walkNodeIds, List.length_map, List.length_cons]
  have := List.length_filterMap_le
    (fun i => (g.edges[i]?).map (fun e => e.tgt)) p
  omega

/-- C2 counterexample: (a) in `gPersonSeed` the pre-captured target has a
qualifying one-hop chain from a listed Person seed under C2's wording, yet
the code's chain query — whose pattern requires `seed:Company` — returns
no chains; (b) in `gRevisit` the five-hop walk `[0,1,0,1,2]` (edges
`S->Y`, `Y->S` reused) qualifies under C2's wording, which never excludes
edge reuse, but Cypher's relationship-distinct path matching cannot return
it: its six-node chain is longer than any enumerated one. -/
theorem c2_counterexample :
    (findNode gPersonSeed 1).map (fun n => flaggedListed n) = some false ∧
    (findNode gPersonSeed 1).map (fun n => n.bis_50_captured) = some true ∧
    c2ClaimChain gPersonSeed 1 pSeedNode [0] ∧
    (get_bis50_analysis gPersonSeed 1).ownership_chains = some [] ∧
    c2ClaimChain gRevisit 2 sRevisitNode [0, 1, 0, 1, 2] ∧
    (get_bis50_analysis gRevisit 2).ownership_chains =
      some (chainsFor gRevisit 2) ∧
    chainRecOf gRevisit sRevisitNode [0, 1, 0, 1, 2] ∉ chainsFor gRevisit 2 := by
  refine ⟨by decide, by decide,
    ⟨by decide, Or.inl (by decide), by decide, by decide, by decide⟩,
    by decide,
    ⟨by decide, Or.inl (by decide), by decide, by decide, by decide⟩,
    ?_, ?_⟩
  · unfold get_bis50_analysis
    rw [(by decide : findNode gRevisit 2 = some xRevisitNode)]
    dsimp only
    rw [if_neg (by decide : ¬ flaggedListed xRevisitNode = true),
      if_pos (by decide : xRevisitNode.bis_50_captured = true)]
  · intro hmem
    rw [chainsFor_mem] at hmem
    obtain ⟨seed, p, hm, hs, hne, hlen, hnd, hw, heq⟩ := hmem
    have hple : p.length ≤ 3 :=
      walk_length_le_edges gRevisit okCapture false p seed.id 2 hnd hw
    have hcle : (chainRecOf gRevisit seed p).chain.length ≤ 4 :=
      le_trans (chainRecOf_chain_length_le gRevisit seed p) (by omega)
    have h6 : (chainRecOf gRevisit sRevisitNode [0, 1, 0, 1, 2]).chain.length
        = 6 := by decide
    rw [heq] at h6
    omega

/-- C2 (amended): for every existing, not directly listed entity with
`bis_50_captured` set, the analysis returns captured with the stored
reason and the enumerated chains; the chains are exactly the
relationship-distinct `OWNS` walks of 1 to 5 all-`>=50` hops from a listed
Company seed, and each chain's effective percentage is the product of its
hop percentages divided by `100 ^ (k - 1)` for a `k`-hop chain. -/
theorem c2_chain_enumeration (g : Graph) (eid : ℕ) (n : Node)
    (hn : findNode g eid = some n) (hnl : flaggedListed n = false)
    (hc : n.bis_50_captured = true) :
    (get_bis50_analysis g eid).captured = true ∧
    (get_bis50_analysis g eid).is_direct_listing = some false ∧
    (get_bis50_analysis g eid).reason = n.bis_50_reason ∧
    (get_bis50_analysis g eid).ownership_chains = some (chainsFor g eid) ∧
    (∀ c, c ∈ chainsFor g eid ↔ ∃ seed p,
      seed ∈ g.nodes ∧ seed.label = Label.Company ∧
      ("entity_list" ∈ seed.risk_flags ∨ "meu_list" ∈ seed.risk_flags) ∧
      p ≠ [] ∧ p.length ≤ 5 ∧ p.Nodup ∧
      isWalk g okCapture false seed.id p eid = true ∧
      c = chainRecOf g seed p) ∧
    (∀ (seed : Node) (p : List ℕ), p ≠ [] →
      (chainRecOf g seed p).effective_percentage =
        (p.map (pctOf g)).prod / 100 ^ (p.length - 1)) := by
  have hres : get_bis50_analysis g eid =
      { entity_id := eid, captured := true, reason := n.bis_50_reason,
        is_direct_listing := some false,
        ownership_chains := some (chainsFor g eid) } := by
    unfold get_bis50_analysis
    rw [hn]
    simp [hnl, hc]
  refine ⟨by rw [hres], by rw [hres], by rw [hres], by rw [hres], ?_, ?_⟩
  · intro c
    rw [chainsFor_mem]
    constructor
    · rintro ⟨seed, p, hm, hs, rest⟩
      obtain ⟨hslab, hsfl⟩ := (seedOK_iff seed).mp hs
      exact ⟨seed, p, hm, hslab, hsfl, rest⟩
    · rintro ⟨seed, p, hm, hslab, hsfl, rest⟩
      exact ⟨seed, p, hm, (seedOK_iff seed).mpr ⟨hslab, hsfl⟩, rest⟩
  · intro seed p hne
    exact effective_closed_form g p hne

/-- Fixture for the chain arithmetic: `A` (listed) owns 100% of `B`, which
owns 70% of pre-captured `C`, which owns 80% of pre-captured `D`. -/
def gChainEx : Graph :=
  { nodes := [
      { id := 0, label := .Company, name_en := "A", risk_flags := ["entity_list"] },
      { id := 1, label := .Company, name_en := "B", risk_flags := [] },
      { id := 2, label := .Company, name_en := "C", risk_flags := [],
        bis_50_captured := true, bis_50_reason := some "Owned >=50% by A" },
      { id := 3, label := .Company, name_en := "D", risk_flags := [],
        bis_50_captured := true, bis_50_reason := some "Owned >=50% by A" }],
    edges := [
      { src := 0, tgt := 1, etype := "OWNS", percentage := some 100 },
      { src := 1, tgt := 2, etype := "OWNS", percentage := some 70 },
      { src := 2, tgt := 3, etype := "OWNS", percentage := some 80 }] }

/-- The pre-captured node `C` of `gChainEx`. -/
def cChainNode : Node :=
  { id := 2, label := .Company, name_en := "C", risk_flags := [],
    bis_50_captured := true, bis_50_reason := some "Owned >=50% by A" }

/-- The seed node `A` of `gChainEx`. -/
def aChainNode : Node :=
  { id := 0, label := .Company, name_en := "A", risk_flags := ["entity_list"] }

/-- C2 witness: on `gChainEx` the chain `A(100%) -> B(70%) -> C` has
effective percentage 70, and the four-node chain through to `D` has 56,
via the amended theorem's closed form. -/
theorem c2_chain_enumeration_witness :
    (get_bis50_analysis gChainEx 2).ownership_chains =
      some (chainsFor gChainEx 2) ∧
    (chainRecOf gChainEx aChainNode [0, 1]).effective_percentage = 70 ∧
    (chainRecOf gChainEx aChainNode [0, 1, 2]).effective_percentage = 56 := by
  have h := c2_chain_enumeration gChainEx 2 cChainNode (by decide) (by decide)
    (by decide)
  have e0 : pctOf gChainEx 0 = 100 := rfl
  have e1 : pctOf gChainEx 1 = 70 := rfl
  have e2 : pctOf gChainEx 2 = 80 := rfl
  refine ⟨h.2.2.2.1, ?_, ?_⟩
  · rw [h.2.2.2.2.2 aChainNode [0, 1] (by decide)]
    simp only [List.map_cons, List.map_nil, List.prod_cons, List.prod_nil,
      e0, e1, List.length_cons, List.length_nil]
    norm_num
  · rw [h.2.2.2.2.2 aChainNode [0, 1, 2] (by decide)]
    simp only [List.map_cons, List.map_nil, List.prod_cons, List.prod_nil,
      e0, e1, e2, List.length_cons, List.length_nil]
    norm_num

/-- C4 counterexample: in `gPersonOwner` the target's only direct owner is
a listed Person holding 60%, so C4's sum over listed direct parents is 60
and the claim demands capture; the code's aggregate query — whose pattern
requires `listed:Company` — matches nothing and reports not captured. -/
theorem c4_counterexample :
    (findNode gPersonOwner 1).map (fun n => flaggedListed n) = some false ∧
    (findNode gPersonOwner 1).map (fun n => n.bis_50_captured) = some false ∧
    50 ≤ c4ClaimSum gPersonOwner 1 ∧
    get_bis50_analysis gPersonOwner 1 =
      { entity_id := 1, captured := false,
        reason := some "Not captured by BIS 50% rule" } := by
  refine ⟨by decide, by decide, ?_, by decide⟩
  have h : c4ClaimSum gPersonOwner 1 = ([60] : List ℚ).sum := rfl
  rw [h]
  norm_num

/-- The aggregate total is zero when no listed-owner row matches. -/
theorem aggregateTotal_nonneg_rows (g : Graph) (tid : ℕ)
    (h : listedOwnerRows g tid = []) : aggregateTotal g tid = 0 := by
  unfold aggregateTotal
  rw [h]
  simp

/-- C4 (amended): for an existing entity that is neither directly listed
nor pre-captured, the analysis returns the aggregate-capture record
exactly when the sum of `OWNS` percentages from direct listed Company
parents reaches 50, and the not-captured record otherwise; the
contributing owners are exactly the sources of single `OWNS` edges into
the target that are listed Companies (no recursion). -/
theorem c4_aggregate_fallback (g : Graph) (eid : ℕ) (n : Node)
    (hn : findNode g eid = some n) (hnl : flaggedListed n = false)
    (hc : n.bis_50_captured = false) :
    (50 ≤ aggregateTotal g eid →
      get_bis50_analysis g eid =
        { entity_id := eid, captured := true,
          reason := some ("Aggregate ownership by listed parties: " ++
            toString (aggregateTotal g eid) ++ "%"),
          is_direct_listing := some false,
          aggregate_percentage := some (aggregateTotal g eid),
          listed_owners := some (aggregateOwners g eid) }) ∧
    (aggregateTotal g eid < 50 →
      get_bis50_analysis g eid =
        { entity_id := eid, captured := false,
          reason := some "Not captured by BIS 50% rule" }) ∧
    (∀ r, r ∈ listedOwnerRows g eid ↔
      r.1 ∈ g.edges ∧ r.1.etype = "OWNS" ∧ r.1.tgt = eid ∧
        findNode g r.1.src = some r.2 ∧ r.2.label = Label.Company ∧
        ("entity_list" ∈ r.2.risk_flags ∨ "meu_list" ∈ r.2.risk_flags)) ∧
    aggregateTotal g eid =
      ((listedOwnerRows g eid).map (fun r => r.1.percentage.getD 0)).sum := by
  have hbranch : get_bis50_analysis g eid =
      if listedOwnerRows g eid ≠ [] ∧ 50 ≤ aggregateTotal g eid then
        { entity_id := eid, captured := true,
          reason := some ("Aggregate ownership by listed parties: " ++
            toString (aggregateTotal g eid) ++ "%"),
          is_direct_listing := some false,
          aggregate_percentage := some (aggregateTotal g eid),
          listed_owners := some (aggregateOwners g eid) }
      else
        { entity_id := eid, captured := false,
          reason := some "Not captured by BIS 50% rule" } := by
    unfold get_bis50_analysis
    rw [hn]
    simp [hnl, hc]
  refine ⟨?_, ?_, ?_, rfl⟩
  · intro hge
    have hrows : listedOwnerRows g eid ≠ [] := by
      intro hr
      rw [aggregateTotal_nonneg_rows g eid hr] at hge
      norm_num at hge
    rw [hbranch, if_pos ⟨hrows, hge⟩]
  · intro hlt
    rw [hbranch, if_neg (fun hcond => absurd hcond.2 (not_le.mpr hlt))]
  · intro r
    unfold listedOwnerRows
    rw [List.mem_filterMap]
    constructor
    · rintro ⟨e, he, heq⟩
      by_cases hcond : (e.etype == "OWNS" && e.tgt == eid) = true
      · rw [if_pos hcond] at heq
        cases hfind : findNode g e.src with
        | none => rw [hfind] at heq; cases heq
        | some o =>
          rw [hfind] at heq
          dsimp only at heq
          by_cases hs : seedOK o = true
          · rw [if_pos hs] at heq
            cases heq
            simp only [Bool.and_eq_true, beq_iff_eq] at hcond
            obtain ⟨hslab, hsfl⟩ := (seedOK_iff o).mp hs
            exact ⟨he, hcond.1, hcond.2, hfind, hslab, hsfl⟩
          · rw [if_neg hs] at heq
            cases heq
      · rw [if_neg hcond] at heq
        cases heq
    · rintro ⟨he, het, htgt, hfind, hslab, hsfl⟩
      refine ⟨r.1, he, ?_⟩
      have hcond : (r.1.etype == "OWNS" && r.1.tgt == eid) = true := by
        simp [het, htgt]
      rw [if_pos hcond, hfind]
      dsimp only
      rw [if_pos ((seedOK_iff r.2).mpr ⟨hslab, hsfl⟩)]

/-- Fixture: two listed Company owners at 30% and 25% of one target. -/
def gTwoOwners : Graph :=
  { nodes := [
      { id := 0, label := .Company, name_en := "L1", risk_flags := ["entity_list"] },
      { id := 1, label := .Company, name_en := "L2", risk_flags := ["meu_list"] },
      { id := 2, label := .Company, name_en := "T", risk_flags := [] }],
    edges := [
      { src := 0, tgt := 2, etype := "OWNS", percentage := some 30 },
      { src := 1, tgt := 2, etype := "OWNS", percentage := some 25 }] }

/-- The target node of `gTwoOwners`. -/
def tTwoOwnersNode : Node :=
  { id := 2, label := .Company, name_en := "T", risk_flags := [] }

/-- C4 witness: two direct listed owners at 30% and 25% capture the target
through the aggregate rule with `aggregate_percentage = 55`. -/
theorem c4_aggregate_fallback_witness :
    get_bis50_analysis gTwoOwners 2 =
      { entity_id := 2, captured := true,
        reason := some ("Aggregate ownership by listed parties: " ++
          toString (aggregateTotal gTwoOwners 2) ++ "%"),
        is_direct_listing := some false,
        aggregate_percentage := some (aggregateTotal gTwoOwners 2),
        listed_owners := some (aggregateOwners gTwoOwners 2) } ∧
    aggregateTotal gTwoOwners 2 = 55 := by
  have htot : aggregateTotal gTwoOwners 2 = 55 := by
    have h : aggregateTotal gTwoOwners 2 = ([30, 25] : List ℚ).sum := rfl
    rw [h]
    norm_num
  refine ⟨(c4_aggregate_fallback gTwoOwners 2 tTwoOwnersNode (by decide)
    (by decide) (by decide)).1 (by rw [htot]; norm_num), htot⟩

/-- Marking changes only the derived fields: `id` is preserved. -/
theorem bis50MarkNode_id (g : Graph) (n : Node) :
    (bis50MarkNode g n).id = n.id := by
  unfold bis50MarkNode
  cases findMarkingSeedReason g n <;> rfl

/-- Marking preserves the label. -/
theorem bis50MarkNode_label (g : Graph) (n : Node) :
    (bis50MarkNode g n).label = n.label := by
  unfold bis50MarkNode
  cases findMarkingSeedReason g n <;> rfl

/-- Marking preserves the risk flags. -/
theorem bis50MarkNode_risk_flags (g : Graph) (n : Node) :
    (bis50MarkNode g n).risk_flags = n.risk_flags := by
  unfold bis50MarkNode
  cases findMarkingSeedReason g n <;> rfl

/-- Marking preserves the English name. -/
theorem bis50MarkNode_name_en (g : Graph) (n : Node) :
    (bis50MarkNode g n).name_en = n.name_en := by
  unfold bis50MarkNode
  cases findMarkingSeedReason g n <;> rfl

/-- Marking preserves the seed test. -/
theorem seedOK_mark (g : Graph) (n : Node) :
    seedOK (bis50MarkNode g n) = seedOK n := by
  unfold seedOK flaggedListed
  rw [bis50MarkNode_label, bis50MarkNode_risk_flags]

/-- Marking preserves the target test. -/
theorem targetOK_mark (g : Graph) (n : Node) :
    targetOK (bis50MarkNode g n) = targetOK n := by
  unfold targetOK
  rw [bis50MarkNode_label, bis50MarkNode_risk_flags]

/-- The batch pass leaves the edge list untouched, so the enumerated
capture paths of the updated graph are those of the input. -/
theorem capturePaths_compute (g : Graph) (a : ℕ) :
    capturePaths (compute_bis50_captures g) a = capturePaths g a := rfl

/-- The batch pass's match for an already-updated node against the
already-updated graph coincides with the match of the original node
against the original graph: the match reads only risk flags, labels,
identifiers, names and edges, none of which the pass writes. -/
theorem findMarkingSeedReason_compute (g : Graph) (n : Node) :
    findMarkingSeedReason (compute_bis50_captures g) (bis50MarkNode g n) =
      findMarkingSeedReason g n := by
  unfold findMarkingSeedReason
  rw [targetOK_mark]
  by_cases ht : targetOK n = true
  · rw [if_pos ht, if_pos ht]
    show ((g.nodes.map (bis50MarkNode g)).find? _).map _ = _
    rw [List.find?_map]
    have hq : ((fun seed => seedOK seed &&
          !(seed.id == (bis50MarkNode g n).id) &&
          (capturePaths (compute_bis50_captures g) seed.id).any
            (fun q => q.2 == (bis50MarkNode g n).id)) ∘ bis50MarkNode g) =
        (fun seed => seedOK seed && !(seed.id == n.id) &&
          (capturePaths g seed.id).any (fun q => q.2 == n.id)) := by
      funext s
      simp only [Function.comp_apply, seedOK_mark, bis50MarkNode_id,
        capturePaths_compute]
    rw [hq, Option.map_map]
    cases hfind : g.nodes.find? (fun seed => seedOK seed &&
        !(seed.id == n.id) &&
        (capturePaths g seed.id).any (fun q => q.2 == n.id)) with
    | none => rfl
    | some seed =>
      simp only [Option.map_some', Function.comp_apply, bis50MarkNode_name_en]
  · rw [if_neg ht, if_neg ht]

/-- Re-marking an already-marked node changes nothing. -/
theorem bis50MarkNode_idem (g : Graph) (n : Node) :
    bis50MarkNode (compute_bis50_captures g) (bis50MarkNode g n) =
      bis50MarkNode g n := by
  cases hr : findMarkingSeedReason g n with
  | none =>
    have hn : bis50MarkNode g n = n := by
      unfold bis50MarkNode
      rw [hr]
    rw [hn]
    have hr' : findMarkingSeedReason (compute_bis50_captures g) n = none := by
      rw [← hn, findMarkingSeedReason_compute, hr]
    unfold bis50MarkNode
    rw [hr']
  | some r =>
    have hmark : bis50MarkNode g n =
        { n with bis_50_captured := true, bis_50_reason := some r } := by
      unfold bis50MarkNode
      rw [hr]
    have hr' := findMarkingSeedReason_compute g n
    rw [hr, hmark] at hr'
    rw [hmark]
    unfold bis50MarkNode
    rw [hr']

/-- C5: the batch capture computation is idempotent — running
`compute_bis50_captures` twice on an unchanged graph produces exactly the
graph produced by running it once, so in particular the same nodes carry
`bis_50_captured` with the same `bis_50_reason` values. -/
theorem c5_batch_idempotent (g : Graph) :
    compute_bis50_captures (compute_bis50_captures g) =
      compute_bis50_captures g := by
  show Graph.mk ((g.nodes.map (bis50MarkNode g)).map
      (bis50MarkNode (compute_bis50_captures g))) g.edges =
    Graph.mk (g.nodes.map (bis50MarkNode g)) g.edges
  rw [List.map_map]
  congr 1
  apply List.map_congr_left
  intro n _
  exact bis50MarkNode_idem g n

/-- C6 counterexample: the path enumeration shared by the batch pass and
the chain query produces the relationship-distinct path `S -> Y -> S -> X`
in `gRevisit`, whose node sequence visits `S` twice, and the corresponding
chain is among the chain query's rows — Cypher path matching forbids
repeated relationships, not repeated nodes. -/
theorem c6_counterexample :
    ([0, 1, 2], 2) ∈ capturePaths gRevisit 0 ∧
    walkNodeIds gRevisit 0 [0, 1, 2] = [0, 1, 0, 2] ∧
    ¬ (walkNodeIds gRevisit 0 [0, 1, 2]).Nodup ∧
    chainRecOf gRevisit sRevisitNode [0, 1, 2] ∈ chainsFor gRevisit 2 := by
  refine ⟨by decide, by decide, by decide, ?_⟩
  exact (chainsFor_mem gRevisit 2 _).mpr ⟨sRevisitNode, [0, 1, 2], by decide,
    by decide, by decide, by decide, by decide, by decide, rfl⟩

/-- The node `A` of `gCycle`. -/
def aCycleNode : Node :=
  { id := 0, label := .Company, name_en := "A", risk_flags := ["entity_list"] }

/-- The node `B` of `gCycle` as the batch pass leaves it: captured via the
seed `A`. -/
def bCycleMarkedNode : Node :=
  { id := 1, label := .Company, name_en := "B", risk_flags := [],
    bis_50_captured := true, bis_50_reason := some "Owned >=50% by A" }

/-- C6 (amended): every enumerated path is bounded by the fuel (5 for the
capture queries) and repeats no edge, so the traversals terminate on any
graph; on the pure cycle `A -> B -> A` with `A` listed, the batch pass
marks only `B` (via `A`'s direct ownership) and never marks the seed `A`
through the path via `B` back to itself. -/
theorem c6_bounded_paths :
    (∀ (g : Graph) (ok : Edge → Bool) (undir : Bool) (fuel a : ℕ)
        (used p : List ℕ) (b : ℕ),
      (p, b) ∈ walksAux g ok undir fuel a used →
        p ≠ [] ∧ p.length ≤ fuel ∧ p.Nodup) ∧
    compute_bis50_captures gCycle =
      Graph.mk [aCycleNode, bCycleMarkedNode] gCycle.edges ∧
    (∀ n ∈ (compute_bis50_captures gCycle).nodes, n.id = 0 →
      n.bis_50_captured = false) := by
  refine ⟨?_, by decide, by decide⟩
  intro g ok undir fuel a used p b hmem
  obtain ⟨hne, hlen, hnd, -, -⟩ := (walksAux_mem g ok undir fuel a used p b).mp hmem
  exact ⟨hne, hlen, hnd⟩

/-- C6 witness: the bound applied to the one-hop path `A -> B` of the
cycle fixture. -/
theorem c6_bounded_paths_witness :
    ([0], 1) ∈ walksAux gCycle okCapture false 5 0 [] ∧
    ([0] : List ℕ) ≠ [] ∧ ([0] : List ℕ).length ≤ 5 ∧
      ([0] : List ℕ).Nodup :=
  ⟨by decide, c6_bounded_paths.1 gCycle okCapture false 5 0 [] [0] 1 (by decide)⟩

/-- The center node shared by `gSubsidiary` and `gIsolated`. -/
def cCenterNode : Node :=
  { id := 0, label := .Company, name_en := "C", risk_flags := [] }

/-- C7 counterexample: (a) in `gSubsidiary` the network result contains
`Z`, reached over a `SUBSIDIARY_OF` edge, although `Z` is not reachable
along `OWNS`/`OFFICER_OF`/`CONTROLS` — the query's pattern also traverses
`SUBSIDIARY_OF`; (b) in `gIsolated` the existing center is absent from the
result's node list (the query's `UNWIND` of the empty relationship list of
the center row produces no rows, so the final aggregation returns
nothing), although the claim requires the result to contain the center. -/
theorem c7_counterexample :
    (1 : ℕ) ∈ (get_entity_network gSubsidiary 0 1).nodes ∧
    ¬ c7ClaimNode gSubsidiary 0 1 1 ∧
    findNode gIsolated 0 = some cCenterNode ∧
    c7ClaimNode gIsolated 0 1 0 ∧
    (0 : ℕ) ∉ (get_entity_network gIsolated 0 1).nodes := by
  refine ⟨by decide, ?_, by decide, Or.inl rfl, by decide⟩
  rintro (h | ⟨p, hne, hlen, hw⟩)
  · exact absurd h (by decide)
  · rcases p with - | ⟨i, p'⟩
    · exact hne rfl
    · rcases i with - | i <;>
        simp [isWalk, gSubsidiary, okNetworkClaim] at hw

/-- C7 (amended): for an existing center, the network extraction traverses
`OWNS`, `OFFICER_OF`, `CONTROLS` and `SUBSIDIARY_OF` edges in both
directions up to `depth` hops.  When at least one such path exists, the
result's nodes are exactly the center plus the ends of the
relationship-distinct walks of 1 to `depth` undirected hops, and its edges
are exactly the original edge records traversed by some such walk;
when no such path exists the result has empty node and edge lists. -/
theorem c7_network_extraction (g : Graph) (cid depth : ℕ) (n0 : Node)
    (h : findNode g cid = some n0) :
    (networkWalks g cid depth = [] →
      get_entity_network g cid depth =
        { nodes := [], edges := [], center_id := cid }) ∧
    (networkWalks g cid depth ≠ [] →
      (∀ nid, nid ∈ (get_entity_network g cid depth).nodes ↔
        nid = cid ∨ ∃ p, p ≠ [] ∧ p.length ≤ depth ∧ p.Nodup ∧
          isWalk g okNetwork true cid p nid = true) ∧
      (∀ e, e ∈ (get_entity_network g cid depth).edges ↔
        ∃ p b i, p ≠ [] ∧ p.length ≤ depth ∧ p.Nodup ∧
          isWalk g okNetwork true cid p b = true ∧ i ∈ p ∧
          g.edges[i]? = some e) ∧
      (get_entity_network g cid depth).center_id = cid) := by
  constructor
  · intro hws
    unfold get_entity_network
    rw [h]
    dsimp only
    rw [if_pos hws]
  · intro hws
    have hres : get_entity_network g cid depth =
        { nodes := (cid :: (networkWalks g cid depth).map (fun q => q.2)).dedup
          edges := ((networkWalks g cid depth).flatMap
              (fun q => q.1)).dedup.filterMap (fun i => g.edges[i]?)
          center_id := cid } := by
      unfold get_entity_network
      rw [h]
      dsimp only
      rw [if_neg hws]
    refine ⟨?_, ?_, by rw [hres]⟩
    · intro nid
      rw [hres]
      show nid ∈ List.dedup _ ↔ _
      rw [List.mem_dedup, List.mem_cons, List.mem_map]
      constructor
      · rintro (rfl | ⟨⟨p, b⟩, hq, rfl⟩)
        · exact Or.inl rfl
        · obtain ⟨hne, hlen, hnd, -, hw⟩ :=
            (walksAux_mem g okNetwork true depth cid [] p b).mp hq
          exact Or.inr ⟨p, hne, hlen, hnd, hw⟩
      · rintro (rfl | ⟨p, hne, hlen, hnd, hw⟩)
        · exact Or.inl rfl
        · exact Or.inr ⟨(p, nid),
            (walksAux_mem g okNetwork true depth cid [] p nid).mpr
              ⟨hne, hlen, hnd, by simp, hw⟩, rfl⟩
    · intro e
      rw [hres]
      show e ∈ List.filterMap _ _ ↔ _
      rw [List.mem_filterMap]
      constructor
      · rintro ⟨i, hi, hie⟩
        rw [List.mem_dedup, List.mem_flatMap] at hi
        obtain ⟨⟨p, b⟩, hq, hip⟩ := hi
        obtain ⟨hne, hlen, hnd, -, hw⟩ :=
          (walksAux_mem g okNetwork true depth cid [] p b).mp hq
        exact ⟨p, b, i, hne, hlen, hnd, hw, hip, hie⟩
      · rintro ⟨p, b, i, hne, hlen, hnd, hw, hip, hie⟩
        refine ⟨i, ?_, hie⟩
        rw [List.mem_dedup, List.mem_flatMap]
        exact ⟨(p, b),
          (walksAux_mem g okNetwork true depth cid [] p b).mpr
            ⟨hne, hlen, hnd, by simp, hw⟩, hip⟩

/-- C7 witness: on `gSubsidiary` at depth 1, node `Z` and the
`SUBSIDIARY_OF` edge are in the result by the amended characterization. -/
theorem c7_network_extraction_witness :
    (1 : ℕ) ∈ (get_entity_network gSubsidiary 0 1).nodes ∧
    ({ src := 0, tgt := 1, etype := "SUBSIDIARY_OF" } : Edge) ∈
      (get_entity_network gSubsidiary 0 1).edges := by
  have h := (c7_network_extraction gSubsidiary 0 1 cCenterNode
    (by decide)).2 (by decide)
  exact ⟨(h.1 1).mpr (Or.inr ⟨[0], by decide, by decide, by decide, by decide⟩),
    (h.2.1 _).mpr ⟨[0], 1, 0, by decide, by decide, by decide, by decide,
      by decide, by decide⟩⟩

/-- C9 counterexample: an existing but isolated center produces a
successful network result with an empty node list — in particular one not
containing the center — while the claim's example demands a successful
result containing the center itself. -/
theorem c9_counterexample :
    findNode gIsolated 0 = some cCenterNode ∧
    networkEndpoint gIsolated 0 1 =
      Except.ok { nodes := [], edges := [], center_id := 0 } ∧
    (0 : ℕ) ∉ ({ nodes := [], edges := [], center_id := 0 } : NetworkRes).nodes := by
  refine ⟨by decide, rfl, by decide⟩

/-- C9 (amended): an absent entity id is always distinguishable — the
network endpoint raises its not-found error and AnalyzeCapture returns the
distinct not-found record, while every existing entity gets a successful
network result and an analysis record different from the not-found record
(an isolated center's successful result may be empty and need not contain
the center). -/
theorem c9_not_found_distinct (g : Graph) (eid depth : ℕ) :
    (findNode g eid = none →
      networkEndpoint g eid depth =
        Except.error ("Entity not found: " ++ toString eid) ∧
      get_bis50_analysis g eid =
        { entity_id := eid, captured := false,
          reason := some "Entity not found" }) ∧
    (∀ n, findNode g eid = some n →
      (∃ r, networkEndpoint g eid depth = Except.ok r) ∧
      get_bis50_analysis g eid ≠
        { entity_id := eid, captured := false,
          reason := some "Entity not found" }) := by
  constructor
  · intro h
    constructor
    · unfold networkEndpoint
      rw [h]
    · unfold get_bis50_analysis
      rw [h]
  · intro n hn
    constructor
    · exact ⟨get_entity_network g eid depth, by unfold networkEndpoint; rw [hn]⟩
    · unfold get_bis50_analysis
      rw [hn]
      dsimp only
      by_cases h1 : flaggedListed n = true
      · rw [if_pos h1]
        intro heq
        simpa using congrArg CaptureResult.captured heq
      · rw [if_neg h1]
        by_cases h2 : n.bis_50_captured = true
        · rw [if_pos h2]
          intro heq
          simpa using congrArg CaptureResult.captured heq
        · rw [if_neg h2]
          by_cases h3 : listedOwnerRows g eid ≠ [] ∧ 50 ≤ aggregateTotal g eid
          · rw [if_pos h3]
            intro heq
            simpa using congrArg CaptureResult.captured heq
          · rw [if_neg h3]
            intro heq
            simpa using congrArg CaptureResult.reason heq

/-- C9 witness: the absent id 5 yields the not-found error and not-found
analysis record; the present isolated center yields a successful network
result. -/
theorem c9_not_found_distinct_witness :
    (networkEndpoint gIsolated 5 1 =
      Except.error ("Entity not found: " ++ toString (5 : ℕ)) ∧
    get_bis50_analysis gIsolated 5 =
      { entity_id := 5, captured := false,
        reason := some "Entity not found" }) ∧
    ∃ r, networkEndpoint gIsolated 0 1 = Except.ok r :=
  ⟨(c9_not_found_distinct gIsolated 5 1).1 (by decide),
    ((c9_not_found_distinct gIsolated 0 1).2 cCenterNode (by decide)).1⟩

/-- A guarded `filterMap` is a `map` over a `filter`. -/
theorem filterMap_if_eq_filter_map {α β : Type} (P : α → Prop)
    [DecidablePred P] (f : α → β) (l : List α) :
    l.filterMap (fun x => if P x then some (f x) else none) =
      (l.filter (fun x => decide (P x))).map f := by
  induction l with
  | nil => rfl
  | cons x l ih =>
    by_cases h : P x <;>
      simp [List.filterMap_cons, List.filter_cons, h, ih]

/-- C8's wording of the detector output: for every ordered pair of a
dated sanction event and a dated event of the relevant bucket satisfying
the timing window, one pattern entry, with no deduplication. -/
def c8SpecPatterns (events : List TEvent) : List Pattern :=
  (bucket events ["sanction_added", "sanction_expanded"]).flatMap (fun s =>
    ((bucket events ["restructure"]).filter
        (fun r => decide ((r.1 - s.1).natAbs ≤ 180))).map
      (restructurePattern s) ++
    ((bucket events ["name_change"]).filter
        (fun n => decide (s.1 < n.1 ∧ n.1 - s.1 ≤ 365))).map
      (nameChangePattern s) ++
    ((bucket events ["ownership_change"]).filter
        (fun o => decide (s.1 < o.1 ∧ o.1 - s.1 ≤ 365))).map
      (ownershipChangePattern s))

/-- Fixture for the pairwise-exhaustiveness of the detector: two sanctions
and two restructures all within 180 days of each other, plus a restructure
with no date, a restructure dated on a nonexistent day, and a sanction
with an unparseable date. -/
def c8Fixture : List TEvent := [
  { eid := "s1", event_type := "sanction_added", date := some "2020-01-01" },
  { eid := "s2", event_type := "sanction_expanded", date := some "2020-02-01" },
  { eid := "r1", event_type := "restructure", date := some "2020-03-01" },
  { eid := "r2", event_type := "restructure", date := some "2020-04-01" },
  { eid := "r3", event_type := "restructure", date := none },
  { eid := "r4", event_type := "restructure", date := some "2021-02-29" },
  { eid := "s3", event_type := "sanction_added", date := some "garbage" }]

/-- C8: the detector first discards undated and unparseable events, then
emits exactly one pattern entry per qualifying (sanction event, other
event) pair: `restructure_near_sanction`/high within 180 days either way,
`name_change_after_sanction`/medium strictly after and within 365 days,
`ownership_change_after_sanction`/high strictly after and within 365 days;
on the fixture, 2 sanctions and 2 nearby restructures yield 4 restructure
patterns, all of severity high, while the three defective events
contribute nothing. -/
theorem c8_detect_patterns (events : List TEvent) :
    analyze_timeline_patterns events = c8SpecPatterns events ∧
    (analyze_timeline_patterns c8Fixture).countP
      (fun pt => pt.ptype == "restructure_near_sanction") = 4 ∧
    (analyze_timeline_patterns c8Fixture).countP
      (fun pt => pt.severity == "high") = 4 ∧
    (analyze_timeline_patterns c8Fixture).length = 4 := by
  refine ⟨?_, by decide, by decide, by decide⟩
  unfold analyze_timeline_patterns c8SpecPatterns
  dsimp only
  congr 1
  funext s
  rw [filterMap_if_eq_filter_map (fun r => (r.1 - s.1).natAbs ≤ 180)
      (restructurePattern s),
    filterMap_if_eq_filter_map (fun n => s.1 < n.1 ∧ n.1 - s.1 ≤ 365)
      (nameChangePattern s),
    filterMap_if_eq_filter_map (fun o => s.1 < o.1 ∧ o.1 - s.1 ≤ 365)
      (ownershipChangePattern s)]
